import Mathlib

/-!
Verification of the claude-flip profile-switching engine.

This development is a shallow embedding of the Go sources of the repository:
  internal/config/config.go   (ClaudeConfig load/save, validation, accessors)
  internal/profile/profile.go (ProfileManager, Switcher, sanitizeFilename,
                               SaveProfile/LoadProfile/DeleteProfile,
                               Get/SetActiveProfile, GetNextProfile,
                               SaveCurrentAccount, SwitchToAccount,
                               RenameProfile, ValidateProfile)
  internal/storage/storage.go / keychain.go (LinuxFileStorage.Store,
                               KeychainStorage.storeLinux)

Conventions of the embedding:
  - Go `map[string]interface{}` values become association lists with
    Go-map update semantics (replace the binding of an existing key,
    append otherwise); JSON values become the inductive `JsonVal`.
  - File systems become association lists path → content; the
    write-to-temp-then-rename sequences of the source are modelled step
    by step, with explicit failure oracles where a claim is about
    failure behaviour.
  - Fallible Go functions return `Except String`, with the source's
    error messages.
  - `time.Time` bookkeeping fields (CreatedAt/UpdatedAt/LastActiveAt,
    LastUpdated) are not modelled: no verified property mentions them.
-/

namespace ClaudeFlip

/-- JSON value, as produced by Go's `encoding/json` unmarshalling into
`interface{}`: strings, numbers, booleans, null, arrays and objects. -/
inductive JsonVal where
  | str (s : String)
  | num (n : Int)
  | bool (b : Bool)
  | null
  | arr (elems : List JsonVal)
  | obj (fields : List (String × JsonVal))

/-- `Credentials` from internal/config/config.go: the structure of
`~/.claude/.credentials.json`, flattening the nested `claudeAiOauth`
struct literal of the source. -/
structure Credentials where
  accessToken : String
  refreshToken : String
  expiresAt : Int
  scopes : List String
  subscriptionType : String
deriving DecidableEq, Repr

/-- A value stored in a `ClaudeConfig` map. Go's `map[string]interface{}`
can hold both decoded JSON (`js`) and, after `LoadClaudeConfig` assigns
`config["_cflip_credentials"] = *credentials`, a typed Go struct
(`creds`). -/
inductive ConfigVal where
  | js (v : JsonVal)
  | creds (c : Credentials)

/-- `ClaudeConfig` from internal/config/config.go: the complete external
config document as a raw string-keyed map. -/
abbrev Doc := List (String × ConfigVal)

/-- A plain file system: path → file content. -/
abbrev FS := List (String × String)

/-- Association-list lookup (first binding of the key; keys are unique
under Go-map update semantics). -/
def lookupA {β : Type} : List (String × β) → String → Option β
  | [], _ => none
  | (k', v) :: rest, k => if k' = k then some v else lookupA rest k

/-- Association-list update with Go-map assignment semantics: replace
the binding of an existing key, append a new binding otherwise. -/
def setA {β : Type} : List (String × β) → String → β → List (String × β)
  | [], k, v => [(k, v)]
  | (k', v') :: rest, k, v =>
      if k' = k then (k, v) :: rest else (k', v') :: setA rest k v

/-- Association-list removal of every binding of a key (Go `delete`). -/
def eraseA {β : Type} : List (String × β) → String → List (String × β)
  | [], _ => []
  | (k', v') :: rest, k =>
      if k' = k then eraseA rest k else (k', v') :: eraseA rest k

theorem lookupA_setA_self {β : Type} (l : List (String × β)) (k : String) (v : β) :
    lookupA (setA l k v) k = some v := by
  induction l with
  | nil => simp [setA, lookupA]
  | cons kv rest ih =>
      by_cases h : kv.1 = k <;> simp [setA, lookupA, h, ih]

theorem lookupA_setA_ne {β : Type} (l : List (String × β)) (k k' : String) (v : β)
    (h : k ≠ k') : lookupA (setA l k v) k' = lookupA l k' := by
  induction l with
  | nil => simp [setA, lookupA, h]
  | cons kv rest ih =>
      by_cases h1 : kv.1 = k <;> by_cases h2 : kv.1 = k' <;>
        simp_all [setA, lookupA]

theorem lookupA_eraseA_self {β : Type} (l : List (String × β)) (k : String) :
    lookupA (eraseA l k) k = none := by
  induction l with
  | nil => simp [eraseA, lookupA]
  | cons kv rest ih =>
      by_cases h : kv.1 = k <;> simp [eraseA, lookupA, h, ih]

theorem lookupA_eraseA_ne {β : Type} (l : List (String × β)) (k k' : String)
    (h : k ≠ k') : lookupA (eraseA l k) k' = lookupA l k' := by
  induction l with
  | nil => simp [eraseA]
  | cons kv rest ih =>
      by_cases h1 : kv.1 = k <;> by_cases h2 : kv.1 = k' <;>
        simp_all [eraseA, lookupA]

theorem setA_setA_same {β : Type} (l : List (String × β)) (k : String) (v w : β) :
    setA (setA l k v) k w = setA l k w := by
  induction l with
  | nil => simp [setA]
  | cons kv rest ih =>
      by_cases h : kv.1 = k <;> simp [setA, h, ih]

theorem mem_of_lookupA_some {β : Type} {l : List (String × β)} {k : String} {v : β}
    (h : lookupA l k = some v) : (k, v) ∈ l := by
  induction l with
  | nil => simp [lookupA] at h
  | cons kv rest ih =>
      by_cases h1 : kv.1 = k
      · simp [lookupA, h1] at h
        subst h1
        subst h
        exact List.mem_cons_self _ _
      · simp [lookupA, h1] at h
        exact List.mem_cons_of_mem _ (ih h)

theorem mem_setA_self {β : Type} (l : List (String × β)) (k : String) (v : β) :
    (k, v) ∈ setA l k v := by
  induction l with
  | nil => simp [setA]
  | cons kv rest ih =>
      by_cases h : kv.1 = k <;> simp [setA, h, ih]

theorem mem_setA_of_ne {β : Type} {l : List (String × β)} {f : String} {q : β}
    (k : String) (v : β) (hm : (f, q) ∈ l) (h : f ≠ k) : (f, q) ∈ setA l k v := by
  induction l with
  | nil => simp at hm
  | cons kv rest ih =>
      rcases List.mem_cons.mp hm with h1 | h1
      · subst h1
        simp [setA, h]
      · by_cases h2 : kv.1 = k
        · simp [setA, h2]
          right
          exact h1
        · simp [setA, h2]
          right
          exact ih h1

theorem mem_eraseA_of_ne {β : Type} {l : List (String × β)} {f : String} {q : β}
    (k : String) (hm : (f, q) ∈ l) (h : f ≠ k) : (f, q) ∈ eraseA l k := by
  induction l with
  | nil => simp at hm
  | cons kv rest ih =>
      rcases List.mem_cons.mp hm with h1 | h1
      · subst h1
        simp [eraseA, h]
      · by_cases h2 : kv.1 = k
        · simp [eraseA, h2]
          exact ih h1
        · simp [eraseA, h2]
          right
          exact ih h1

theorem lookupA_filter {β : Type} (l : List (String × β)) (p : String → Bool)
    (k : String) :
    lookupA (l.filter fun kv => p kv.1) k =
      if p k then lookupA l k else none := by
  induction l with
  | nil => simp [lookupA]
  | cons kv rest ih =>
      by_cases h1 : kv.1 = k
      · subst h1
        by_cases h2 : p kv.1 <;> simp [lookupA, List.filter, h2, ih]
      · by_cases h2 : p kv.1 <;> simp [lookupA, List.filter, h2, ih, h1]

/-- Is an `Except` result an error? -/
def isErr {α : Type} : Except String α → Bool
  | .error _ => true
  | .ok _ => false

/-! ## internal/config/config.go -/

/-- `ClaudeConfig.GetUserEmail`: reach into the `oauthAccount` object
and take the `emailAddress` string, `""` when anything is missing. -/
def getUserEmail (c : Doc) : String :=
  match lookupA c "oauthAccount" with
  | some (.js (.obj o)) =>
      match lookupA o "emailAddress" with
      | some (.str e) => e
      | _ => ""
  | _ => ""

/-- `ClaudeConfig.GetAccountUuid`: reach into the `oauthAccount` object
and take the `accountUuid` string, `""` when anything is missing. -/
def getAccountUuid (c : Doc) : String :=
  match lookupA c "oauthAccount" with
  | some (.js (.obj o)) =>
      match lookupA o "accountUuid" with
      | some (.str u) => u
      | _ => ""
  | _ => ""

/-- `ValidateConfig`: requires an `oauthAccount` object with non-empty
`emailAddress` and non-empty `accountUuid`. -/
def validateConfig (c : Doc) : Except String Unit :=
  match lookupA c "oauthAccount" with
  | some (.js (.obj o)) =>
      match lookupA o "emailAddress" with
      | some (.str e) =>
          if e = "" then .error "no email found in configuration"
          else
            match lookupA o "accountUuid" with
            | some (.str u) =>
                if u = "" then .error "no account UUID found in configuration"
                else .ok ()
            | _ => .error "no account UUID found in configuration"
      | _ => .error "no email found in configuration"
  | _ => .error "no OAuth account information found"

/-- Decoding of one optional string field, with Go `encoding/json`
semantics: a missing field or JSON null keeps the zero value, a value
of the wrong type is an unmarshalling error. -/
def decodeStrField (v : Option JsonVal) : Option String :=
  match v with
  | none => some ""
  | some .null => some ""
  | some (.str s) => some s
  | some _ => none

/-- Decoding of one optional integer field (cf. `decodeStrField`). -/
def decodeIntField (v : Option JsonVal) : Option Int :=
  match v with
  | none => some 0
  | some .null => some 0
  | some (.num n) => some n
  | some _ => none

/-- Decoding of a JSON array of strings (cf. `decodeStrField`). -/
def decodeStrList (v : Option JsonVal) : Option (List String) :=
  match v with
  | none => some []
  | some .null => some []
  | some (.arr es) =>
      es.foldr
        (fun e acc =>
          match e, acc with
          | .str s, some l => some (s :: l)
          | _, _ => none)
        (some [])
  | some _ => none

/-- Go `json.Unmarshal` of a JSON value into the `Credentials` struct
(the nested `claudeAiOauth` object). -/
def decodeCredentials (v : JsonVal) : Option Credentials :=
  match v with
  | .obj fs =>
      match lookupA fs "claudeAiOauth" with
      | none => some ⟨"", "", 0, [], ""⟩
      | some .null => some ⟨"", "", 0, [], ""⟩
      | some (.obj o) =>
          match decodeStrField (lookupA o "accessToken"),
                decodeStrField (lookupA o "refreshToken"),
                decodeIntField (lookupA o "expiresAt"),
                decodeStrList (lookupA o "scopes"),
                decodeStrField (lookupA o "subscriptionType") with
          | some a, some r, some e, some sc, some su => some ⟨a, r, e, sc, su⟩
          | _, _, _, _, _ => none
      | some _ => none
  | _ => none

/-- `ClaudeConfig.GetCredentials`: the `_cflip_credentials` entry is
either the typed struct stored by `LoadClaudeConfig` or a decoded JSON
object (which the source re-marshals and unmarshals into the struct). -/
def getCredentials (c : Doc) : Option Credentials :=
  match lookupA c "_cflip_credentials" with
  | some (.creds cr) => some cr
  | some (.js v) => decodeCredentials v
  | none => none

/-- The document transformation performed by `LoadClaudeConfig` once a
candidate path has parsed into document `d`: when the platform
credential load succeeds, the credentials struct is assigned to the
`_cflip_credentials` key; a failed credential load leaves the document
as parsed. (Path probing and JSON parsing are upstream I/O.) -/
def loadClaudeConfigDoc (d : Doc) (creds : Option Credentials) : Doc :=
  match creds with
  | some c => setA d "_cflip_credentials" (.creds c)
  | none => d

/-- Character-list core of Go's `strings.HasPrefix`. -/
def goStartsWithChars : List Char → List Char → Bool
  | [], _ => true
  | _ :: _, [] => false
  | p :: ps, c :: cs => if p = c then goStartsWithChars ps cs else false

/-- Go's `strings.HasPrefix(s, pre)`. -/
def goStartsWith (s pre : String) : Bool := goStartsWithChars pre.data s.data

/-- The "clean copy" built by `SaveClaudeConfig`: every key of the
document except those prefixed with `_cflip_`. The source copies
non-prefixed keys into a fresh map; filtering the association list
yields the same key→value mapping. -/
def cleanConfig (c : Doc) : Doc :=
  c.filter fun kv => !(goStartsWith kv.1 "_cflip_")

/-- Serialization of the credentials struct (Go `json.Marshal`; the
exact JSON text is irrelevant to every verified property). -/
def marshalCreds (c : Credentials) : String :=
  "\x7b\"accessToken\":\"" ++ c.accessToken ++ "\",\"refreshToken\":\"" ++
    c.refreshToken ++ "\",\"expiresAt\":" ++ toString c.expiresAt ++
    ",\"scopes\":[" ++ String.intercalate "," c.scopes ++
    "],\"subscriptionType\":\"" ++ c.subscriptionType ++ "\"\x7d"

mutual

/-- Serialization of a JSON value (Go `json.MarshalIndent`; a compact
deterministic rendering is used, the exact text is irrelevant to every
verified property). -/
def marshalJson : JsonVal → String
  | .str s => "\"" ++ s ++ "\""
  | .num n => toString n
  | .bool b => if b then "true" else "false"
  | .null => "null"
  | .arr es => "[" ++ marshalArr es ++ "]"
  | .obj fs => "\x7b" ++ marshalObj fs ++ "\x7d"

/-- Serialization of the elements of a JSON array. -/
def marshalArr : List JsonVal → String
  | [] => ""
  | v :: rest => marshalJson v ++ "," ++ marshalArr rest

/-- Serialization of the fields of a JSON object. -/
def marshalObj : List (String × JsonVal) → String
  | [] => ""
  | (k, v) :: rest => "\"" ++ k ++ "\":" ++ marshalJson v ++ "," ++ marshalObj rest

end

/-- Serialization of one config-map value. -/
def marshalVal : ConfigVal → String
  | .js v => marshalJson v
  | .creds c => marshalCreds c

/-- Serialization of a config document. -/
def marshalDoc (d : Doc) : String :=
  "\x7b" ++
    String.intercalate ","
      (d.map fun kv => "\"" ++ kv.1 ++ "\":" ++ marshalVal kv.2) ++
    "\x7d"

/-- Outcome of one `os.WriteFile` call: success, failure that leaves a
partially written file behind (e.g. `ENOSPC` after the create), or
failure before the file is created. -/
inductive WriteRes where
  | ok
  | failLeftover (leftover : String)
  | failNoFile
deriving DecidableEq, Repr

/-- Outcome of one `os.Rename` call. -/
inductive RenameRes where
  | ok
  | fail
deriving DecidableEq, Repr

/-- Failure oracle for the three writes performed by `SaveClaudeConfig`:
the `.backup` copy, the `.tmp` write, and the rename. -/
structure SaveEnv where
  backupW : WriteRes
  tempW : WriteRes
  ren : RenameRes
deriving DecidableEq, Repr

/-- The live config path used by `SaveClaudeConfig`: `~/.claude.json`. -/
def configPath (home : String) : String := home ++ "/.claude.json"

/-- `SaveClaudeConfig`: back the live file up to a `.backup` sibling if
it exists, strip `_cflip_`-prefixed keys, write the serialization to
`.tmp`, rename over the live file; on rename failure remove the temp
file. Returns the Go result together with the resulting file system. -/
def saveClaudeConfig (home : String) (cfg : Doc) (env : SaveEnv) (fs : FS) :
    Except String Unit × FS :=
  let cp := configPath home
  let proceed : FS → Except String Unit × FS := fun fs1 =>
    let data := marshalDoc (cleanConfig cfg)
    let tempPath := cp ++ ".tmp"
    match env.tempW with
    | .ok =>
        let fs2 := setA fs1 tempPath data
        match env.ren with
        | .ok => (.ok (), setA (eraseA fs2 tempPath) cp data)
        | .fail => (.error "failed to replace config file", eraseA fs2 tempPath)
    | .failLeftover s =>
        (.error "failed to write temporary config file", setA fs1 tempPath s)
    | .failNoFile => (.error "failed to write temporary config file", fs1)
  match lookupA fs cp with
  | some content =>
      match env.backupW with
      | .ok => proceed (setA fs (cp ++ ".backup") content)
      | .failLeftover s =>
          (.error "failed to create backup", setA fs (cp ++ ".backup") s)
      | .failNoFile => (.error "failed to create backup", fs)
  | none => proceed fs

/-! ## internal/profile/profile.go — ProfileManager -/

/-- `sanitizeFilename`'s per-character step: keep ASCII letters, digits,
`.` and `-`; replace everything else with `_`. -/
def sanitizeChars : List Char → List Char
  | [] => []
  | r :: rest =>
      (if ('a' ≤ r ∧ r ≤ 'z') ∨ ('A' ≤ r ∧ r ≤ 'Z') ∨ ('0' ≤ r ∧ r ≤ '9') ∨
          r = '.' ∨ r = '-'
       then r else '_') :: sanitizeChars rest

/-- `sanitizeFilename`: the Go loop appends each rune or `_` to the
result string. -/
def sanitizeFilename (s : String) : String := ⟨sanitizeChars s.data⟩

/-- The file name `SaveProfile`/`findProfilePath` derive from an email
or identifier: `sanitizeFilename(x) + ".profile"`. -/
def profileKey (x : String) : String := sanitizeFilename x ++ ".profile"

/-- `Profile` from internal/profile/profile.go (time.Time bookkeeping
fields omitted; see the file header). `claudeConfig` and `credentials`
are Go pointers, hence `Option`. -/
structure ProfileR where
  name : String
  email : String
  aliasName : String
  accountUuid : String
  claudeConfig : Option Doc
  credentials : Option Credentials

/-- `Config` from internal/profile/profile.go: the cflip Repository
Index (`~/.cflip/config.json`), holding the active-profile pointer and
the name → email map (`LastUpdated` omitted). -/
structure CflipConfig where
  activeProfile : String
  profiles : List (String × String)

/-- The durable repository state: the parsed contents of the `.profile`
files of `~/.cflip` keyed by file name, plus the Index. Corrupt profile
files (skipped by `ListProfiles`) are not modelled; directory
enumeration order is abstracted as the stored order — no verified
property depends on which stable order `os.ReadDir` yields. -/
structure RepoState where
  files : List (String × ProfileR)
  index : CflipConfig

/-- The empty repository: no profile files, default Index. -/
def emptyRepo : RepoState := ⟨[], ⟨"", []⟩⟩

/-- `ListProfiles`: every parsed `.profile` file, in listing order. -/
def listProfiles (s : RepoState) : List ProfileR :=
  s.files.map fun kv => kv.2

/-- `findProfilePath`: try the sanitized-identifier file name first,
then scan all profiles for a name or email match and return the file
name derived from the matched profile's email. -/
def findProfilePath (s : RepoState) (id : String) : Except String String :=
  if (lookupA s.files (profileKey id)).isSome then .ok (profileKey id)
  else
    match (listProfiles s).find? fun p => p.name == id || p.email == id with
    | some p => .ok (profileKey p.email)
    | none => .error ("profile not found: " ++ id)

/-- `LoadProfile`: resolve the path, then read and parse the file. -/
def loadProfile (s : RepoState) (id : String) : Except String ProfileR :=
  match findProfilePath s id with
  | .error e => .error e
  | .ok path =>
      match lookupA s.files path with
      | some p => .ok p
      | none => .error "failed to read profile file"

/-- `SaveProfile`: reject an empty name, write the profile to the file
named after its sanitized email (write-to-temp-then-rename; file-system
failures are modelled where a claim is about them, in
`saveClaudeConfig`), then `updateConfig`: set the Index's name → email
entry. -/
def saveProfile (s : RepoState) (p : ProfileR) : Except String Unit × RepoState :=
  if p.name = "" then (.error "profile name cannot be empty", s)
  else
    (.ok (),
      { files := setA s.files (profileKey p.email) p,
        index := { s.index with profiles := setA s.index.profiles p.name p.email } })

/-- `DeleteProfile`: resolve the path, load the profile (for its
canonical name), remove the file, remove the Index entry, and clear the
active pointer when it pointed at the deleted profile. -/
def deleteProfile (s : RepoState) (id : String) : Except String Unit × RepoState :=
  match findProfilePath s id with
  | .error e => (.error e, s)
  | .ok path =>
      match loadProfile s id with
      | .error e => (.error ("failed to load profile for deletion: " ++ e), s)
      | .ok p =>
          (.ok (),
            { files := eraseA s.files path,
              index :=
                { activeProfile :=
                    if s.index.activeProfile = p.name then "" else s.index.activeProfile,
                  profiles := eraseA s.index.profiles p.name } })

/-- `GetActiveProfile`: fail when the active pointer is empty, else load
the active profile by name. Performs no write. -/
def getActiveProfile (s : RepoState) : Except String ProfileR :=
  if s.index.activeProfile = "" then .error "no active profile set"
  else loadProfile s s.index.activeProfile

/-- `SetActiveProfile`: load the profile to verify it exists, then store
its canonical name as the active pointer. -/
def setActiveProfile (s : RepoState) (id : String) : Except String Unit × RepoState :=
  match loadProfile s id with
  | .error e => (.error ("profile not found: " ++ e), s)
  | .ok p =>
      (.ok (), { s with index := { s.index with activeProfile := p.name } })

/-- `Switcher.RenameProfile`: load, replace the name when the new name
is non-empty, replace the alias, save. -/
def renameProfile (s : RepoState) (id newName newAlias : String) :
    Except String Unit × RepoState :=
  match loadProfile s id with
  | .error e => (.error ("failed to load profile: " ++ e), s)
  | .ok p =>
      saveProfile s
        { p with
          name := if newName ≠ "" then newName else p.name,
          aliasName := newAlias }

/-! ## internal/profile/profile.go — Switcher -/

/-- `Switcher.ValidateProfile`, after the load: fail when the Claude
config pointer is nil, when `oauthAccount` is not a JSON object, or
when the credentials pointer is nil or the access token is the empty
string. The `ExpiresAt` field is never inspected (the source carries a
TODO for expiration checking). -/
def validateProfile (p : ProfileR) : Except String Unit :=
  match p.claudeConfig with
  | none => .error ("profile " ++ p.name ++ " has no Claude configuration")
  | some cfg =>
      match lookupA cfg "oauthAccount" with
      | some (.js (.obj _)) =>
          match p.credentials with
          | none => .error ("profile " ++ p.name ++ " has no access token")
          | some c =>
              if c.accessToken = "" then
                .error ("profile " ++ p.name ++ " has no access token")
              else .ok ()
      | _ => .error ("profile " ++ p.name ++ " has no OAuth account information")

/-- `Switcher.SaveCurrentAccount` (the engine's addCurrent): validate
the live config, extract the stored credentials, default the profile
name to the live email, build the profile and save it. `live` is the
document `LoadClaudeConfig` produced (credentials already embedded
under `_cflip_credentials`). -/
def saveCurrentAccount (name aliasArg : String) (live : Doc) (s : RepoState) :
    Except String (ProfileR × RepoState) :=
  match validateConfig live with
  | .error e => .error ("invalid Claude Code configuration: " ++ e)
  | .ok _ =>
      match getCredentials live with
      | none => .error "failed to get credentials from config"
      | some creds =>
          let profileName := if name = "" then getUserEmail live else name
          let p : ProfileR :=
            { name := profileName,
              email := getUserEmail live,
              aliasName := aliasArg,
              accountUuid := getAccountUuid live,
              claudeConfig := some live,
              credentials := some creds }
          match saveProfile s p with
          | (.error e, _) => .error ("failed to save profile: " ++ e)
          | (.ok _, s') => .ok (p, s')

/-- `Switcher.GetNextProfile`, as a function of the profile listing and
of the `GetActiveProfile` result: no profiles is an error; a single
profile is returned as is; otherwise the entry after the active one,
falling back to the first entry when there is no active profile, the
active one is not in the list, or it is last. -/
def getNextProfile (profiles : List ProfileR) (activeRes : Except String ProfileR) :
    Except String ProfileR :=
  match profiles with
  | [] => .error "no profiles available"
  | [p] => .ok p
  | p0 :: _ :: _ =>
      match activeRes with
      | .error _ => .ok p0
      | .ok ap =>
          match profiles.findIdx? fun p => p.name == ap.name with
          | none => .ok p0
          | some i =>
              if i = profiles.length - 1 then .ok p0
              else .ok ((profiles.get? (i + 1)).getD p0)  -- i + 1 < length here

/-- Target resolution of `SwitchToAccount`: empty identifier means the
next profile in sequence, otherwise a direct load. -/
def resolveTarget (s : RepoState) (id : String) : Except String ProfileR :=
  if id = "" then
    match getNextProfile (listProfiles s) (getActiveProfile s) with
    | .error e => .error ("failed to get next profile: " ++ e)
    | .ok t => .ok t
  else
    match loadProfile s id with
    | .error e => .error ("failed to load target profile: " ++ e)
    | .ok t => .ok t

/-- External-world outcomes consumed by one `SwitchToAccount` run:
results of the two `LoadClaudeConfig` calls and of the credential load,
and file-system success flags for the fallible writes. -/
structure SwitchEnv where
  /-- First `LoadClaudeConfig` (determines the currently-live email). -/
  loadCfg1 : Except String Doc
  /-- `LoadClaudeConfig` inside the reconciliation step (the refresh
  branch's reload, or the load inside `SaveCurrentAccount`). -/
  loadCfg2 : Except String Doc
  /-- `s.loadCredentials()` in the refresh branch. -/
  loadCreds : Except String Credentials
  /-- Did the `SaveProfile` file write succeed in the refresh branch? -/
  fsSaveRefresh : Bool
  /-- Did the `SaveProfile` file write succeed inside the implicit
  `SaveCurrentAccount`? -/
  fsSaveImplicit : Bool
  /-- Outcome of `applyProfile`'s file writes (`SaveClaudeConfig` and
  `saveCredentials`). -/
  applyRes : Except String Unit
  /-- Did the Index write of `SetActiveProfile` succeed? -/
  fsSetActive : Bool

/-- The currently-live email as `SwitchToAccount` computes it: empty
when the best-effort `LoadClaudeConfig` fails. -/
def liveEmail (env : SwitchEnv) : String :=
  match env.loadCfg1 with
  | .ok c => getUserEmail c
  | .error _ => ""

/-- The reconciliation step of `SwitchToAccount` (the code between
target resolution and `applyProfile`): when a profile exists for the
currently-live email, reload config and credentials and re-save that
profile — each failure aborts with an error; otherwise, when the live
email is non-empty, best-effort `SaveCurrentAccount` whose failure only
logs a warning. Returns the new repository state, or the aborting
error. -/
def reconcile (s : RepoState) (env : SwitchEnv) : Except String RepoState :=
  let currentEmail := liveEmail env
  if currentEmail = "" then .ok s
  else
    match loadProfile s currentEmail with
    | .ok cur =>
        match env.loadCfg2 with
        | .error e => .error ("failed to load current Claude config for backup: " ++ e)
        | .ok cfg =>
            match env.loadCreds with
            | .error e =>
                .error ("failed to load current credentials for backup: " ++ e)
            | .ok creds =>
                let cur' := { cur with claudeConfig := some cfg,
                                       credentials := some creds }
                if env.fsSaveRefresh then
                  match saveProfile s cur' with
                  | (.ok _, s') => .ok s'
                  | (.error e, _) => .error ("failed to update current profile: " ++ e)
                else .error "failed to update current profile"
    | .error _ =>
        -- shouldSaveCurrentAccount: auto-save with the email as name;
        -- a failure is printed as a warning and the switch continues.
        match env.loadCfg2 with
        | .error _ => .ok s
        | .ok live =>
            if env.fsSaveImplicit then
              match saveCurrentAccount currentEmail "" live s with
              | .ok (_, s') => .ok s'
              | .error _ => .ok s
            else .ok s

/-- `applyProfile`: nil-config and nil-credentials checks, then the
config and credential writes (their file-system outcome is the
environment's `applyRes`). -/
def applyProfile (target : ProfileR) (env : SwitchEnv) : Except String Unit :=
  match target.claudeConfig with
  | none => .error "profile has no Claude configuration"
  | some _ =>
      match target.credentials with
      | none => .error "profile has no credentials"
      | some _ => env.applyRes

/-- The observable outcome of one `SwitchToAccount` run: the returned
value, whether the target profile's files were applied, whether the
target was marked active, and the final repository state. -/
structure SwitchResult where
  res : Except String ProfileR
  applied : Bool
  activated : Bool
  state : RepoState

/-- `Switcher.SwitchToAccount`: resolve the target, determine the live
email, reconcile (refresh an existing profile for the live email —
fatally — or implicitly save a new one — best-effort), apply the target
profile, and mark it active. -/
def switchToAccount (s : RepoState) (id : String) (env : SwitchEnv) : SwitchResult :=
  match resolveTarget s id with
  | .error e => ⟨.error e, false, false, s⟩
  | .ok target =>
      match reconcile s env with
      | .error e => ⟨.error e, false, false, s⟩
      | .ok s1 =>
          match applyProfile target env with
          | .error e => ⟨.error ("failed to apply target profile: " ++ e), false, false, s1⟩
          | .ok _ =>
              match setActiveProfile s1 target.name with
              | (.error e, _) =>
                  ⟨.error ("failed to set active profile: " ++ e), true, false, s1⟩
              | (.ok _, s2) =>
                  if env.fsSetActive then ⟨.ok target, true, true, s2⟩
                  else ⟨.error "failed to set active profile", true, false, s1⟩

/-! ## internal/storage/storage.go and keychain.go — Linux backend -/

/-- `LinuxFileStorage.Store` (identical to `KeychainStorage.storeLinux`):
derive `~/.claude/.<service>_<key>.json`, write the data to a `.tmp`
sibling and rename it into place. The data is written verbatim — the
function never calls `encrypt` (internal/storage/crypto.go) — and no
`.backup` copy of a pre-existing file is made. Returns the resulting
file system (success path; `home` is the user home directory). -/
def storeLinux (home service key data : String) (fs : FS) : FS :=
  let credentialsPath := home ++ "/.claude/." ++ service ++ "_" ++ key ++ ".json"
  let tempPath := credentialsPath ++ ".tmp"
  let fs1 := setA fs tempPath data
  setA (eraseA fs1 tempPath) credentialsPath data

/-! ## General helper lemmas -/

theorem append_ne_self (s t : String) (ht : t.length ≠ 0) : s ++ t ≠ s := by
  intro h
  have h1 := congrArg String.length h
  rw [String.length_append] at h1
  omega

/-! ## Spec-side predicates (formalizing the claims' wording) -/

/-- The claim's description of a filename-safe character: an ASCII
letter, digit, `.`, or `-`. -/
def specSafeChar (r : Char) : Bool :=
  r.isAlpha || r.isDigit || r == '.' || r == '-'

/-- The claim's "identity (oauthAccount) sub-document is present":
the profile's config exists and its `oauthAccount` entry is a JSON
object. -/
def specIdentityPresent (p : ProfileR) : Bool :=
  match p.claudeConfig with
  | some cfg =>
      match lookupA cfg "oauthAccount" with
      | some (.js (.obj _)) => true
      | _ => false
  | none => false

/-- The claim's "credentials document is absent". -/
def specCredsAbsent (p : ProfileR) : Bool := p.credentials.isNone

/-- The claim's "access token is the empty string" (on a present
credentials document). -/
def specTokenEmpty (p : ProfileR) : Bool :=
  match p.credentials with
  | some c => c.accessToken == ""
  | none => false

/-- Replace the token-expiry field of a profile's credentials, leaving
everything else unchanged (used to state that validation ignores
expiry). -/
def setExpiry (p : ProfileR) (t : Int) : ProfileR :=
  { p with credentials := p.credentials.map fun c => { c with expiresAt := t } }

theorem specSafeChar_iff (r : Char) :
    (('a' ≤ r ∧ r ≤ 'z') ∨ ('A' ≤ r ∧ r ≤ 'Z') ∨ ('0' ≤ r ∧ r ≤ '9') ∨
        r = '.' ∨ r = '-') ↔ specSafeChar r = true := by
  simp [specSafeChar, Char.isAlpha, Char.isUpper, Char.isLower, Char.isDigit,
    Bool.or_eq_true, Bool.and_eq_true, decide_eq_true_eq, beq_iff_eq]
  tauto

theorem sanitizeChars_eq_map (l : List Char) :
    sanitizeChars l = l.map fun r => if specSafeChar r then r else '_' := by
  induction l with
  | nil => rfl
  | cons r rest ih =>
      simp only [sanitizeChars, List.map, ih, List.cons.injEq, and_true]
      exact if_congr (specSafeChar_iff r) rfl rfl

/-! ## Claim C10 -/

/-- C10: `sanitizeFilename` maps every character that is not an ASCII
letter, digit, `.` or `-` to `_` and keeps the rest (a deterministic
per-character map); it is not injective — `"a@b.c"` and `"a+b.c"` are
distinct emails with the same sanitized name — and saving a profile
whose email collides overwrites the other profile's file. -/
theorem c10_theorem :
    (∀ s : String,
        (sanitizeFilename s).data =
          s.data.map fun r => if specSafeChar r then r else '_') ∧
    sanitizeFilename "a@b.c" = sanitizeFilename "a+b.c" ∧
    "a@b.c" ≠ "a+b.c" ∧
    ((saveProfile (saveProfile emptyRepo ⟨"p1", "a@b.c", "", "", none, none⟩).2
        ⟨"q1", "a+b.c", "", "", none, none⟩).2).files =
      [("a_b.c.profile", ⟨"q1", "a+b.c", "", "", none, none⟩)] := by
  refine ⟨fun s => sanitizeChars_eq_map s.data, by decide, by decide, rfl⟩

/-! ## Claim C2 -/

/-- C2: on the Linux secure-storage backend, `store(key, blob)` writes
the blob verbatim to `~/.claude/.<service>_<key>.json` — the content on
disk is the plaintext input for every input, `encrypt` is never
involved — and storing over an empty file system creates exactly that
one file: no `.backup` sibling is retained. (The claim's described
behaviour — AES-GCM encryption under a home/hostname/salt-derived key
and `.backup` retention — exists in the repository only in
`FileStorage.SaveAccounts`, which `Store`/`storeLinux` never call.) -/
theorem c2_theorem :
    (∀ home service key data : String, ∀ fs : FS,
        lookupA (storeLinux home service key data fs)
          (home ++ "/.claude/." ++ service ++ "_" ++ key ++ ".json") = some data) ∧
    storeLinux "/home/u" "cflip" "user" "secret-token" [] =
      [("/home/u/.claude/.cflip_user.json", "secret-token")] := by
  constructor
  · intro home service key data fs
    exact lookupA_setA_self _ _ _
  · rfl

/-! ## Claim C8 -/

/-- C8: `ValidateProfile` (after the load) fails exactly when the
identity (`oauthAccount`) sub-document is absent, the credentials
document is absent, or the access token is the empty string; and its
verdict is invariant under any change of the token-expiry field. -/
theorem c8_theorem :
    ∀ p : ProfileR,
      (isErr (validateProfile p) =
        (!(specIdentityPresent p) || specCredsAbsent p || specTokenEmpty p)) ∧
      (∀ t : Int, validateProfile (setExpiry p t) = validateProfile p) := by
  intro p
  rcases p with ⟨n, e, a, u, cc, cr⟩
  constructor
  · cases cc with
    | none => cases cr <;> rfl
    | some cfg =>
        simp only [validateProfile, specIdentityPresent, specCredsAbsent,
          specTokenEmpty]
        cases hl : lookupA cfg "oauthAccount" with
        | none => cases cr <;> simp [isErr]
        | some v =>
            cases v with
            | creds c2 => cases cr <;> simp [isErr]
            | js jv =>
                cases jv with
                | obj o =>
                    cases cr with
                    | none => simp [isErr]
                    | some c =>
                        by_cases ht : c.accessToken = "" <;>
                          simp [isErr, ht]
                | str s2 => cases cr <;> simp [isErr]
                | num n2 => cases cr <;> simp [isErr]
                | bool b2 => cases cr <;> simp [isErr]
                | null => cases cr <;> simp [isErr]
                | arr es => cases cr <;> simp [isErr]
  · intro t
    simp only [setExpiry, validateProfile]
    cases cc with
    | none => rfl
    | some cfg =>
        cases hl : lookupA cfg "oauthAccount" with
        | none => cases cr <;> rfl
        | some v =>
            cases v with
            | creds c2 => cases cr <;> rfl
            | js jv => cases jv <;> cases cr <;> rfl

/-! ## Claim C5 -/

/-- C5: `GetNextProfile` fails on an empty listing; returns the single
profile when there is exactly one (active or not); and otherwise
returns the entry after the active one, wrapping to the first entry
when the active profile is last, absent from the listing, or could not
be loaded at all. -/
theorem c5_theorem :
    (∀ a, getNextProfile [] a = .error "no profiles available") ∧
    (∀ p a, getNextProfile [p] a = .ok p) ∧
    (∀ (p0 p1 : ProfileR) (rest : List ProfileR) (e : String),
        getNextProfile (p0 :: p1 :: rest) (.error e) = .ok p0) ∧
    (∀ (p0 p1 : ProfileR) (rest : List ProfileR) (ap : ProfileR),
        ((p0 :: p1 :: rest).findIdx? fun p => p.name == ap.name) = none →
        getNextProfile (p0 :: p1 :: rest) (.ok ap) = .ok p0) ∧
    (∀ (p0 p1 : ProfileR) (rest : List ProfileR) (ap : ProfileR) (i : Nat),
        ((p0 :: p1 :: rest).findIdx? fun p => p.name == ap.name) = some i →
        i = (p0 :: p1 :: rest).length - 1 →
        getNextProfile (p0 :: p1 :: rest) (.ok ap) = .ok p0) ∧
    (∀ (p0 p1 : ProfileR) (rest : List ProfileR) (ap q : ProfileR) (i : Nat),
        ((p0 :: p1 :: rest).findIdx? fun p => p.name == ap.name) = some i →
        (p0 :: p1 :: rest).get? (i + 1) = some q →
        getNextProfile (p0 :: p1 :: rest) (.ok ap) = .ok q) := by
  refine ⟨fun a => rfl, fun p a => rfl, fun p0 p1 rest e => rfl, ?_, ?_, ?_⟩
  · intro p0 p1 rest ap h
    simp [getNextProfile, h]
  · intro p0 p1 rest ap i h hl
    simp [getNextProfile, h, hl]
  · intro p0 p1 rest ap q i h hq
    have hlt : i + 1 < (p0 :: p1 :: rest).length := by
      rcases List.get?_eq_some.mp hq with ⟨hw, _⟩
      exact hw
    have hne : i ≠ rest.length + 1 := by
      simp only [List.length_cons] at hlt
      omega
    have hq' : (p1 :: rest)[i]? = some q := by
      have hstep : (p1 :: rest).get? i = some q := hq
      rwa [List.get?_eq_getElem?] at hstep
    simp [getNextProfile, h, hne, hq']

/-- Witness for C5: with profiles `[A, B, C]`, the next profile after
active `C` is `A` (wraparound), after active `A` it is `B`, and an
active profile absent from the listing yields `A`. -/
theorem c5_witness :
    getNextProfile [⟨"A", "A@x.y", "", "", none, none⟩,
        ⟨"B", "B@x.y", "", "", none, none⟩,
        ⟨"C", "C@x.y", "", "", none, none⟩]
      (.ok ⟨"C", "C@x.y", "", "", none, none⟩) =
      .ok ⟨"A", "A@x.y", "", "", none, none⟩ ∧
    getNextProfile [⟨"A", "A@x.y", "", "", none, none⟩,
        ⟨"B", "B@x.y", "", "", none, none⟩,
        ⟨"C", "C@x.y", "", "", none, none⟩]
      (.ok ⟨"A", "A@x.y", "", "", none, none⟩) =
      .ok ⟨"B", "B@x.y", "", "", none, none⟩ ∧
    getNextProfile [⟨"A", "A@x.y", "", "", none, none⟩,
        ⟨"B", "B@x.y", "", "", none, none⟩,
        ⟨"C", "C@x.y", "", "", none, none⟩]
      (.ok ⟨"Z", "Z@x.y", "", "", none, none⟩) =
      .ok ⟨"A", "A@x.y", "", "", none, none⟩ :=
  ⟨c5_theorem.2.2.2.2.1 _ _ _ _ 2 (by decide) (by decide),
   c5_theorem.2.2.2.2.2 _ _ _ _ _ 0 (by decide) rfl,
   c5_theorem.2.2.2.1 _ _ _ _ (by decide)⟩

/-! ## Claim C4 -/

theorem lookupA_cleanConfig (c : Doc) (k : String) :
    lookupA (cleanConfig c) k =
      if goStartsWith k "_cflip_" = true then none else lookupA c k := by
  induction c with
  | nil =>
      by_cases hk : goStartsWith k "_cflip_" = true <;>
        simp [cleanConfig, lookupA, hk]
  | cons kv rest ih =>
      by_cases h1 : kv.1 = k <;>
        by_cases h2 : goStartsWith kv.1 "_cflip_" = true <;>
          simp_all [cleanConfig, lookupA, List.filter]

/-- C4: the document `SaveClaudeConfig` writes after a capture is
exactly the captured document minus the `_cflip_`-prefixed bookkeeping
keys: every key without the prefix keeps its original on-disk value,
every prefixed key (in particular `_cflip_credentials`, the stored
credentials) is absent from the written document, and on a successful
save the live config file holds precisely the serialization of that
cleaned document. -/
theorem c4_theorem :
    ∀ (d : Doc) (creds : Credentials) (k : String),
      (goStartsWith k "_cflip_" = false →
          lookupA (cleanConfig (loadClaudeConfigDoc d (some creds))) k = lookupA d k) ∧
      (goStartsWith k "_cflip_" = true →
          lookupA (cleanConfig (loadClaudeConfigDoc d (some creds))) k = none) ∧
      lookupA (cleanConfig (loadClaudeConfigDoc d (some creds))) "_cflip_credentials" =
        none ∧
      (∀ (home : String) (fs : FS),
          lookupA (saveClaudeConfig home (loadClaudeConfigDoc d (some creds))
              ⟨.ok, .ok, .ok⟩ fs).2 (configPath home) =
            some (marshalDoc (cleanConfig (loadClaudeConfigDoc d (some creds))))) := by
  intro d creds k
  refine ⟨?_, ?_, ?_, ?_⟩
  · intro hk
    have hne : ("_cflip_credentials" : String) ≠ k := by
      intro hEq
      subst hEq
      rw [(by decide : goStartsWith "_cflip_credentials" "_cflip_" = true)] at hk
      simp at hk
    rw [lookupA_cleanConfig, if_neg (by simp [hk]), loadClaudeConfigDoc,
      lookupA_setA_ne _ _ _ _ hne]
  · intro hk
    rw [lookupA_cleanConfig, if_pos hk]
  · rw [lookupA_cleanConfig, if_pos (by decide)]
  · intro home fs
    unfold saveClaudeConfig
    cases hlk : lookupA fs (configPath home) <;>
      simp [hlk, lookupA_setA_self]

/-- Witness for C4: on a document with a third-party `theme` key, the
written document keeps `theme` verbatim and contains no
`_cflip_credentials` entry. -/
theorem c4_witness :
    lookupA (cleanConfig (loadClaudeConfigDoc
        [("theme", ConfigVal.js (JsonVal.str "dark"))]
        (some ⟨"t", "r", 0, [], "pro"⟩))) "theme" =
      some (ConfigVal.js (JsonVal.str "dark")) ∧
    lookupA (cleanConfig (loadClaudeConfigDoc
        [("theme", ConfigVal.js (JsonVal.str "dark"))]
        (some ⟨"t", "r", 0, [], "pro"⟩))) "_cflip_credentials" = none :=
  ⟨((c4_theorem [("theme", ConfigVal.js (JsonVal.str "dark"))]
      ⟨"t", "r", 0, [], "pro"⟩ "theme").1 (by decide)).trans rfl,
   (c4_theorem [("theme", ConfigVal.js (JsonVal.str "dark"))]
      ⟨"t", "r", 0, [], "pro"⟩ "_cflip_credentials").2.1 (by decide)⟩

/-! ## Claim C6 -/

/-- Well-formedness of a repository state: every profile file is named
after its content's sanitized email — the invariant `SaveProfile` (the
only writer of profile files) establishes. -/
def WFr (s : RepoState) : Prop :=
  ∀ kv ∈ s.files, kv.1 = profileKey kv.2.email

theorem loadProfile_ok_elim {s : RepoState} {id : String} {P : ProfileR}
    (h : loadProfile s id = .ok P) :
    ∃ path, findProfilePath s id = .ok path ∧ lookupA s.files path = some P := by
  unfold loadProfile at h
  cases hf : findProfilePath s id with
  | error e => rw [hf] at h; simp at h
  | ok path =>
      rw [hf] at h
      dsimp only at h
      cases hl : lookupA s.files path with
      | none => rw [hl] at h; simp at h
      | some q =>
          rw [hl] at h
          dsimp only at h
          simp only [Except.ok.injEq] at h
          exact ⟨path, rfl, by rw [hl, h]⟩

/-- C6: `DeleteProfile` on a loadable profile `P` removes `P`'s file
and its Index entry, clears the active pointer when it pointed at `P`,
and in that case a subsequent `GetActiveProfile` fails with the
no-active-profile error. -/
theorem c6_theorem (s : RepoState) (id : String) (P : ProfileR)
    (hwf : WFr s) (hload : loadProfile s id = .ok P) :
    ∃ s', deleteProfile s id = (.ok (), s') ∧
      lookupA s'.files (profileKey P.email) = none ∧
      lookupA s'.index.profiles P.name = none ∧
      (s.index.activeProfile = P.name →
        s'.index.activeProfile = "" ∧
        getActiveProfile s' = .error "no active profile set") := by
  obtain ⟨path, hf, hl⟩ := loadProfile_ok_elim hload
  have hpath : path = profileKey P.email := hwf (path, P) (mem_of_lookupA_some hl)
  have hdel : deleteProfile s id =
      (.ok (),
        ⟨eraseA s.files path,
          ⟨if s.index.activeProfile = P.name then "" else s.index.activeProfile,
            eraseA s.index.profiles P.name⟩⟩) := by
    simp only [deleteProfile, hf, hload]
  refine ⟨_, hdel, ?_, ?_, ?_⟩
  · rw [← hpath]
    exact lookupA_eraseA_self _ _
  · exact lookupA_eraseA_self _ _
  · intro ha
    rw [if_pos ha]
    exact ⟨rfl, rfl⟩

/-- Witness for C6: a concrete repository with one profile, active; its
deletion empties the file and Index entries and `getActive` then fails. -/
theorem c6_witness :
    ∃ s', deleteProfile
        ⟨[("a_b.c.profile", ⟨"a@b.c", "a@b.c", "", "", none, none⟩)],
          ⟨"a@b.c", [("a@b.c", "a@b.c")]⟩⟩ "a@b.c" = (.ok (), s') ∧
      lookupA s'.files (profileKey "a@b.c") = none ∧
      lookupA s'.index.profiles "a@b.c" = none ∧
      (("a@b.c" : String) = "a@b.c" →
        s'.index.activeProfile = "" ∧
        getActiveProfile s' = .error "no active profile set") :=
  c6_theorem
    ⟨[("a_b.c.profile", ⟨"a@b.c", "a@b.c", "", "", none, none⟩)],
      ⟨"a@b.c", [("a@b.c", "a@b.c")]⟩⟩ "a@b.c"
    ⟨"a@b.c", "a@b.c", "", "", none, none⟩
    (by intro kv hm; simp at hm; subst hm; rfl) rfl

/-! ## Claim C7 -/

theorem getUserEmail_ne_of_validate {live : Doc}
    (hv : validateConfig live = .ok ()) : getUserEmail live ≠ "" := by
  unfold validateConfig at hv
  unfold getUserEmail
  cases hl : lookupA live "oauthAccount" with
  | none => rw [hl] at hv; simp at hv
  | some v =>
      rw [hl] at hv
      cases v with
      | creds c => simp at hv
      | js jv =>
          cases jv with
          | obj o =>
              dsimp only at hv ⊢
              cases he : lookupA o "emailAddress" with
              | none => rw [he] at hv; simp at hv
              | some ev =>
                  rw [he] at hv
                  cases ev with
                  | str e =>
                      dsimp only at hv ⊢
                      by_cases hemp : e = ""
                      · rw [if_pos hemp] at hv
                        simp at hv
                      · exact hemp
                  | num n => simp at hv
                  | bool b => simp at hv
                  | null => simp at hv
                  | arr es => simp at hv
                  | obj o2 => simp at hv
          | str s2 => simp at hv
          | num n2 => simp at hv
          | bool b2 => simp at hv
          | null => simp at hv
          | arr es => simp at hv

/-- C7: two consecutive `addCurrent`-style saves with an empty name and
no intervening external change produce one profile under one canonical
name (the live email): the second call returns the same profile and
leaves the repository state exactly as after the first, and from the
empty repository exactly one profile file exists afterwards. -/
theorem c7_theorem (s : RepoState) (live : Doc) (c : Credentials)
    (hv : validateConfig live = .ok ()) (hc : getCredentials live = some c) :
    ∃ (p : ProfileR) (s₁ : RepoState),
      saveCurrentAccount "" "" live s = .ok (p, s₁) ∧
      saveCurrentAccount "" "" live s₁ = .ok (p, s₁) ∧
      p.name = getUserEmail live ∧
      (s = emptyRepo → s₁.files = [(profileKey (getUserEmail live), p)]) := by
  have he := getUserEmail_ne_of_validate hv
  refine ⟨⟨getUserEmail live, getUserEmail live, "", getAccountUuid live,
      some live, some c⟩,
    ⟨setA s.files (profileKey (getUserEmail live))
        ⟨getUserEmail live, getUserEmail live, "", getAccountUuid live,
          some live, some c⟩,
      ⟨s.index.activeProfile,
        setA s.index.profiles (getUserEmail live) (getUserEmail live)⟩⟩,
    ?_, ?_, rfl, ?_⟩
  · simp [saveCurrentAccount, hv, hc, saveProfile, he]
  · simp [saveCurrentAccount, hv, hc, saveProfile, he, setA_setA_same]
  · intro hs
    subst hs
    rfl

/-- Witness for C7: a concrete valid live document; the double save
yields one profile named by the live email and a single profile file. -/
theorem c7_witness :
    ∃ (p : ProfileR) (s₁ : RepoState),
      saveCurrentAccount "" ""
          [("oauthAccount", ConfigVal.js (JsonVal.obj
              [("emailAddress", JsonVal.str "a@b.c"),
               ("accountUuid", JsonVal.str "u-1")])),
           ("_cflip_credentials", ConfigVal.creds ⟨"tok", "r", 0, [], "pro"⟩)]
          emptyRepo = .ok (p, s₁) ∧
      saveCurrentAccount "" ""
          [("oauthAccount", ConfigVal.js (JsonVal.obj
              [("emailAddress", JsonVal.str "a@b.c"),
               ("accountUuid", JsonVal.str "u-1")])),
           ("_cflip_credentials", ConfigVal.creds ⟨"tok", "r", 0, [], "pro"⟩)]
          s₁ = .ok (p, s₁) ∧
      p.name = getUserEmail
          [("oauthAccount", ConfigVal.js (JsonVal.obj
              [("emailAddress", JsonVal.str "a@b.c"),
               ("accountUuid", JsonVal.str "u-1")])),
           ("_cflip_credentials", ConfigVal.creds ⟨"tok", "r", 0, [], "pro"⟩)] ∧
      (emptyRepo = emptyRepo →
        s₁.files = [(profileKey (getUserEmail
          [("oauthAccount", ConfigVal.js (JsonVal.obj
              [("emailAddress", JsonVal.str "a@b.c"),
               ("accountUuid", JsonVal.str "u-1")])),
           ("_cflip_credentials", ConfigVal.creds ⟨"tok", "r", 0, [], "pro"⟩)]), p)]) :=
  c7_theorem emptyRepo
    [("oauthAccount", ConfigVal.js (JsonVal.obj
        [("emailAddress", JsonVal.str "a@b.c"),
         ("accountUuid", JsonVal.str "u-1")])),
     ("_cflip_credentials", ConfigVal.creds ⟨"tok", "r", 0, [], "pro"⟩)]
    ⟨"tok", "r", 0, [], "pro"⟩ rfl rfl

/-! ## Claim C3 -/

/-- C3 counterexample: with live config `"old"`, a temp-file write that
fails after creating the file (content `"x"`) makes `SaveClaudeConfig`
return an error with the live file untouched — but the partial `.tmp`
file is left behind, because the source removes the temp file only in
the rename-failure branch. This refutes the claim's "no leftover `.tmp`
file remains". -/
theorem c3_counterexample :
    isErr (saveClaudeConfig "/h" [] ⟨.ok, .failLeftover "x", .ok⟩
        [("/h/.claude.json", "old")]).1 = true ∧
    lookupA (saveClaudeConfig "/h" [] ⟨.ok, .failLeftover "x", .ok⟩
        [("/h/.claude.json", "old")]).2 "/h/.claude.json" = some "old" ∧
    lookupA (saveClaudeConfig "/h" [] ⟨.ok, .failLeftover "x", .ok⟩
        [("/h/.claude.json", "old")]).2 "/h/.claude.json.tmp" = some "x" :=
  ⟨rfl, by decide, by decide⟩

/-- C3 (amended): whenever `SaveClaudeConfig` fails — in the backup,
temp-write or rename step — the live config file's content is unchanged
(byte-identical); and when the temp write succeeded and the rename step
failed, no `.tmp` file remains. (A failed temp write may leave a
partial `.tmp` file, as the counterexample shows.) -/
theorem c3_theorem :
    ∀ (home : String) (cfg : Doc) (env : SaveEnv) (fs : FS),
      (isErr (saveClaudeConfig home cfg env fs).1 = true →
        lookupA (saveClaudeConfig home cfg env fs).2 (configPath home) =
          lookupA fs (configPath home)) ∧
      (env.tempW = .ok → env.ren = .fail →
        (lookupA fs (configPath home) = none ∨ env.backupW = .ok) →
        lookupA (saveClaudeConfig home cfg env fs).2 (configPath home ++ ".tmp") =
          none) := by
  intro home cfg env fs
  have htc : configPath home ++ ".tmp" ≠ configPath home :=
    append_ne_self _ _ (by decide)
  have hbc : configPath home ++ ".backup" ≠ configPath home :=
    append_ne_self _ _ (by decide)
  rcases env with ⟨bw, tw, rn⟩
  constructor
  · intro herr
    cases hlk : lookupA fs (configPath home) <;>
      cases bw <;> cases tw <;> cases rn <;>
        simp_all [saveClaudeConfig, isErr, lookupA_setA_ne, lookupA_eraseA_ne,
          htc, hbc]
  · intro htw hrn hb
    subst htw
    subst hrn
    cases hlk : lookupA fs (configPath home) with
    | none => simp [saveClaudeConfig, hlk, lookupA_eraseA_self]
    | some content =>
        rcases hb with hb | hb
        · rw [hlk] at hb
          exact absurd hb (by simp)
        · subst hb
          simp [saveClaudeConfig, hlk, lookupA_eraseA_self]

/-- Witness for C3 (amended): concrete rename failure over live content
`"old"`: the live file still holds `"old"` and no `.tmp` file remains. -/
theorem c3_witness :
    lookupA (saveClaudeConfig "/h" [] ⟨.ok, .ok, .fail⟩
        [("/h/.claude.json", "old")]).2 (configPath "/h") =
      lookupA [("/h/.claude.json", "old")] (configPath "/h") ∧
    lookupA (saveClaudeConfig "/h" [] ⟨.ok, .ok, .fail⟩
        [("/h/.claude.json", "old")]).2 (configPath "/h" ++ ".tmp") = none :=
  ⟨( c3_theorem "/h" [] ⟨.ok, .ok, .fail⟩ [("/h/.claude.json", "old")]).1 rfl,
   ( c3_theorem "/h" [] ⟨.ok, .ok, .fail⟩ [("/h/.claude.json", "old")]).2 rfl rfl
     (Or.inr rfl)⟩

/-! ## Claim C1 -/

/-- A minimal live config document with the given identity. -/
def oauthDoc (email uuid : String) : Doc :=
  [("oauthAccount", .js (.obj
      [("emailAddress", .str email), ("accountUuid", .str uuid)]))]

/-- Stored profile for `a@b.c`. -/
def paProfile : ProfileR :=
  ⟨"a@b.c", "a@b.c", "", "u-a", some (oauthDoc "a@b.c" "u-a"),
    some ⟨"tokA", "r", 0, [], "pro"⟩⟩

/-- Stored profile for `b@c.d`. -/
def pbProfile : ProfileR :=
  ⟨"b@c.d", "b@c.d", "", "u-b", some (oauthDoc "b@c.d" "u-b"),
    some ⟨"tokB", "r", 0, [], "pro"⟩⟩

/-- Repository holding the two profiles, `a@b.c` active. -/
def abRepo : RepoState :=
  ⟨[("a_b.c.profile", paProfile), ("b_c.d.profile", pbProfile)],
    ⟨"a@b.c", [("a@b.c", "a@b.c"), ("b@c.d", "b@c.d")]⟩⟩

/-- Switch environment in which the live account is `a@b.c` (which has
a stored profile) and the credential load for the reconciliation
refresh fails. -/
def credsFailEnv : SwitchEnv :=
  ⟨.ok (oauthDoc "a@b.c" "u-a"), .ok (oauthDoc "a@b.c" "u-a"),
    .error "keychain locked", true, true, .ok (), true⟩

/-- Switch environment in which the live account `x@y.z` has no stored
profile and the implicit `SaveCurrentAccount` fails (its config reload
errors). -/
def implicitFailEnv : SwitchEnv :=
  ⟨.ok (oauthDoc "x@y.z" "u-x"), .error "disk error",
    .ok ⟨"tokX", "r", 0, [], "pro"⟩, true, true, .ok (), true⟩

/-- C1 counterexample: switching to `b@c.d` while the live account
`a@b.c` has an existing profile, with the reconciliation-step
credential load failing, ABORTS the switch (error returned, target
profile neither applied nor set active) — refuting "the switch is never
aborted by a reconciliation-step error". -/
theorem c1_counterexample :
    (switchToAccount abRepo "b@c.d" credsFailEnv).res =
      .error "failed to load current credentials for backup: keychain locked" ∧
    (switchToAccount abRepo "b@c.d" credsFailEnv).applied = false ∧
    (switchToAccount abRepo "b@c.d" credsFailEnv).activated = false :=
  ⟨rfl, rfl, rfl⟩

/-- C1 (amended): only the implicit-create reconciliation path is
non-fatal — when no profile exists for the live email, the switch
applies the target and sets it active whatever the outcome of the
implicit `SaveCurrentAccount`; whereas a failure while refreshing an
existing profile for the live email (config reload, credential load, or
profile re-save) aborts the switch before the target is applied. -/
theorem c1_theorem :
    (∀ (s : RepoState) (id : String) (env : SwitchEnv) (target : ProfileR),
        resolveTarget s id = .ok target →
        liveEmail env ≠ "" →
        isErr (loadProfile s (liveEmail env)) = true →
        env.applyRes = .ok () →
        target.claudeConfig.isSome = true →
        target.credentials.isSome = true →
        (∀ s1, reconcile s env = .ok s1 →
            (setActiveProfile s1 target.name).1 = .ok ()) →
        env.fsSetActive = true →
        (switchToAccount s id env).res = .ok target ∧
        (switchToAccount s id env).applied = true ∧
        (switchToAccount s id env).activated = true) ∧
    (∀ (s : RepoState) (id : String) (env : SwitchEnv) (target cur : ProfileR),
        resolveTarget s id = .ok target →
        liveEmail env ≠ "" →
        loadProfile s (liveEmail env) = .ok cur →
        (isErr env.loadCfg2 = true ∨ isErr env.loadCreds = true ∨
          env.fsSaveRefresh = false) →
        isErr (switchToAccount s id env).res = true ∧
        (switchToAccount s id env).applied = false ∧
        (switchToAccount s id env).activated = false) := by
  constructor
  · intro s id env target hres hne hmiss happ hcfg hcred hset hfs
    have hrec : ∃ s1, reconcile s env = .ok s1 := by
      unfold reconcile
      rw [if_neg hne]
      cases hlp : loadProfile s (liveEmail env) with
      | ok cur => rw [hlp] at hmiss; simp [isErr] at hmiss
      | error e =>
          dsimp only
          cases h2 : env.loadCfg2 with
          | error e2 => exact ⟨s, rfl⟩
          | ok live =>
              dsimp only
              by_cases hf : env.fsSaveImplicit = true
              · cases hsc : saveCurrentAccount (liveEmail env) "" live s with
                | ok pr =>
                    rcases pr with ⟨p, s'⟩
                    exact ⟨s', by simp [hf, hsc]⟩
                | error e3 => exact ⟨s, by simp [hf, hsc]⟩
              · have hf' : env.fsSaveImplicit = false := by
                  revert hf
                  cases env.fsSaveImplicit <;> simp
                exact ⟨s, by simp [hf']⟩
    obtain ⟨s1, hrec⟩ := hrec
    have happly : applyProfile target env = .ok () := by
      unfold applyProfile
      cases hc1 : target.claudeConfig with
      | none => rw [hc1] at hcfg; simp at hcfg
      | some _ =>
          cases hc2 : target.credentials with
          | none => rw [hc2] at hcred; simp at hcred
          | some _ => exact happ
    have hsa := hset s1 hrec
    cases hpair : setActiveProfile s1 target.name with
    | mk fst snd =>
        rw [hpair] at hsa
        dsimp at hsa
        subst hsa
        simp [switchToAccount, hres, hrec, happly, hpair, hfs]
  · intro s id env target cur hres hne hcur hfail
    have hrecE : isErr (reconcile s env) = true := by
      unfold reconcile
      rw [if_neg hne, hcur]
      cases h2 : env.loadCfg2 with
      | error e2 => rfl
      | ok cfg =>
          cases h3 : env.loadCreds with
          | error e3 => rfl
          | ok creds =>
              rcases hfail with h | h | h
              · rw [h2] at h; simp [isErr] at h
              · rw [h3] at h; simp [isErr] at h
              · rw [h]
                rfl
    cases hr : reconcile s env with
    | ok s1 => rw [hr] at hrecE; simp [isErr] at hrecE
    | error msg =>
        simp [switchToAccount, hres, hr, isErr]

/-- Witness for C1 (amended): the implicit-save failure environment
still completes the switch to `b@c.d`; the refresh failure environment
aborts it. -/
theorem c1_witness :
    ((switchToAccount abRepo "b@c.d" implicitFailEnv).res = .ok pbProfile ∧
      (switchToAccount abRepo "b@c.d" implicitFailEnv).applied = true ∧
      (switchToAccount abRepo "b@c.d" implicitFailEnv).activated = true) ∧
    (isErr (switchToAccount abRepo "b@c.d" credsFailEnv).res = true ∧
      (switchToAccount abRepo "b@c.d" credsFailEnv).applied = false ∧
      (switchToAccount abRepo "b@c.d" credsFailEnv).activated = false) :=
  ⟨c1_theorem.1 abRepo "b@c.d" implicitFailEnv pbProfile rfl (by decide) rfl rfl
      rfl rfl
      (by
        intro s1 h
        rw [show reconcile abRepo implicitFailEnv = .ok abRepo from rfl] at h
        injection h with h'
        subst h'
        rfl)
      rfl,
   c1_theorem.2 abRepo "b@c.d" credsFailEnv pbProfile paProfile rfl (by decide)
      rfl (Or.inr (Or.inl rfl))⟩

/-! ## Claim C9 -/

/-- The spec's Repository Index invariant: a non-empty
`activeProfileName` keys an entry of the Index's `profiles` map and
some persisted profile carries that name. -/
def InvIdx (s : RepoState) : Prop :=
  s.index.activeProfile ≠ "" →
    (lookupA s.index.profiles s.index.activeProfile).isSome = true ∧
    ∃ kv ∈ s.files, kv.2.name = s.index.activeProfile

/-- Distinctness of the profile file names of a repository state. -/
def NodupKeysR (s : RepoState) : Prop :=
  (s.files.map fun kv => kv.1).Nodup

theorem lookupA_eq_of_mem_nodup {β : Type} {l : List (String × β)}
    (hnd : (l.map fun kv => kv.1).Nodup) {k : String} {v : β}
    (hm : (k, v) ∈ l) : lookupA l k = some v := by
  induction l with
  | nil => simp at hm
  | cons kv rest ih =>
      simp only [List.map_cons, List.nodup_cons] at hnd
      rcases List.mem_cons.mp hm with h1 | h1
      · rw [← h1]
        simp [lookupA]
      · by_cases h2 : kv.1 = k
        · exfalso
          apply hnd.1
          subst h2
          exact List.mem_map.mpr ⟨(kv.1, v), h1, rfl⟩
        · simp only [lookupA, if_neg h2]
          exact ih hnd.2 h1

/-- C9 counterexample: from the empty repository, save a profile named
`work` (email `a@b.c`), set it active, then rename it to `home`: the
Index still records `work` as active, no persisted profile carries that
name any more, and `getActive` — which performs no repair write — fails.
This refutes both the claimed invariant preservation under rename and
the claimed repair-on-detection. -/
theorem c9_counterexample :
    ((renameProfile
        (setActiveProfile
          (saveProfile emptyRepo ⟨"work", "a@b.c", "", "", none, none⟩).2
          "work").2
        "work" "home" "").2).index.activeProfile = "work" ∧
    (∀ kv ∈ ((renameProfile
        (setActiveProfile
          (saveProfile emptyRepo ⟨"work", "a@b.c", "", "", none, none⟩).2
          "work").2
        "work" "home" "").2).files, kv.2.name ≠ "work") ∧
    getActiveProfile ((renameProfile
        (setActiveProfile
          (saveProfile emptyRepo ⟨"work", "a@b.c", "", "", none, none⟩).2
          "work").2
        "work" "home" "").2) = .error "profile not found: work" :=
  ⟨rfl, by decide, rfl⟩

/-- C9 (amended): the Index invariant — a non-empty active pointer keys
a `profiles` entry and names a persisted profile — is preserved by
`save` (when the saved profile is the active one or its file does not
collide with the active profile's file), by `delete` (which clears the
pointer when it pointed at the deleted profile), and is established by
`setActive` whenever the Index maps the resolved profile's name; rename
breaks it (see the counterexample) and no operation repairs a dangling
pointer on detection — `getActive` performs no write and merely fails. -/
theorem c9_theorem :
    (∀ (s : RepoState) (p : ProfileR),
        InvIdx s →
        (s.index.activeProfile = "" ∨ p.name = s.index.activeProfile ∨
          (∀ kv ∈ s.files, kv.2.name = s.index.activeProfile →
            profileKey p.email ≠ kv.1)) →
        InvIdx (saveProfile s p).2) ∧
    (∀ (s : RepoState) (id : String),
        InvIdx s → WFr s → NodupKeysR s →
        InvIdx (deleteProfile s id).2) ∧
    (∀ (s : RepoState) (id : String) (P : ProfileR),
        loadProfile s id = .ok P →
        (lookupA s.index.profiles P.name).isSome = true →
        InvIdx (setActiveProfile s id).2) := by
  refine ⟨?_, ?_, ?_⟩
  · intro s p hinv hsafe
    by_cases hn : p.name = ""
    · have hsame : (saveProfile s p).2 = s := by simp [saveProfile, hn]
      rw [hsame]
      exact hinv
    · have h2 : (saveProfile s p).2 =
          ⟨setA s.files (profileKey p.email) p,
            ⟨s.index.activeProfile, setA s.index.profiles p.name p.email⟩⟩ := by
        simp [saveProfile, hn]
      rw [h2]
      intro ha
      obtain ⟨hm, ⟨⟨f, q⟩, hkv, hname⟩⟩ := hinv ha
      constructor
      · by_cases hpn : p.name = s.index.activeProfile
        · rw [← hpn, lookupA_setA_self]
          rfl
        · rw [lookupA_setA_ne _ _ _ _ hpn]
          exact hm
      · rcases hsafe with h | h | h
        · exact absurd h ha
        · exact ⟨(profileKey p.email, p), mem_setA_self _ _ _, h⟩
        · exact ⟨(f, q),
            mem_setA_of_ne _ _ hkv (Ne.symm (h (f, q) hkv hname)), hname⟩
  · intro s id hinv hwf hnd
    cases hf : findProfilePath s id with
    | error e =>
        have hsame : (deleteProfile s id).2 = s := by simp [deleteProfile, hf]
        rw [hsame]
        exact hinv
    | ok path =>
        cases hlp : loadProfile s id with
        | error e =>
            have hsame : (deleteProfile s id).2 = s := by
              simp [deleteProfile, hf, hlp]
            rw [hsame]
            exact hinv
        | ok q =>
            obtain ⟨path', hf', hl'⟩ := loadProfile_ok_elim hlp
            rw [hf] at hf'
            injection hf' with hpp
            subst hpp
            have hdel : (deleteProfile s id).2 =
                ⟨eraseA s.files path,
                  ⟨if s.index.activeProfile = q.name then ""
                    else s.index.activeProfile,
                    eraseA s.index.profiles q.name⟩⟩ := by
              simp [deleteProfile, hf, hlp]
            rw [hdel]
            intro ha
            simp only at ha
            by_cases haq : s.index.activeProfile = q.name
            · rw [if_pos haq] at ha
              exact absurd rfl ha
            · rw [if_neg haq] at ha
              obtain ⟨hm, ⟨⟨f, w⟩, hkv, hname⟩⟩ := hinv ha
              constructor
              · show (lookupA (eraseA s.index.profiles q.name)
                    (if s.index.activeProfile = q.name then ""
                      else s.index.activeProfile)).isSome = true
                rw [if_neg haq,
                  lookupA_eraseA_ne _ _ _ (fun hEq => haq hEq.symm)]
                exact hm
              · have hfp : f ≠ path := by
                  intro hEq
                  subst hEq
                  have hlq := lookupA_eq_of_mem_nodup hnd hkv
                  rw [hl'] at hlq
                  injection hlq with hwq
                  exact haq (hwq ▸ hname).symm
                refine ⟨(f, w), mem_eraseA_of_ne _ hkv hfp, ?_⟩
                show w.name = if s.index.activeProfile = q.name then ""
                  else s.index.activeProfile
                rw [if_neg haq]
                exact hname
  · intro s id P hlp hm
    obtain ⟨path, hf, hl⟩ := loadProfile_ok_elim hlp
    have hset : (setActiveProfile s id).2 =
        { s with index := { s.index with activeProfile := P.name } } := by
      simp [setActiveProfile, hlp]
    rw [hset]
    intro ha
    exact ⟨hm, ⟨(path, P), mem_of_lookupA_some hl, rfl⟩⟩

/-- Witness for C9 (amended): a concrete one-profile repository with
`a@b.c` active; a non-colliding save, a failing delete of an unknown
identifier, and a re-`setActive` all preserve/establish the invariant. -/
theorem c9_witness :
    InvIdx (saveProfile
      ⟨[("a_b.c.profile", paProfile)], ⟨"a@b.c", [("a@b.c", "a@b.c")]⟩⟩
      pbProfile).2 ∧
    InvIdx (deleteProfile
      ⟨[("a_b.c.profile", paProfile)], ⟨"a@b.c", [("a@b.c", "a@b.c")]⟩⟩
      "zzz").2 ∧
    InvIdx (setActiveProfile
      ⟨[("a_b.c.profile", paProfile)], ⟨"a@b.c", [("a@b.c", "a@b.c")]⟩⟩
      "a@b.c").2 :=
  ⟨c9_theorem.1 _ pbProfile (by unfold InvIdx; decide)
      (Or.inr (Or.inr (by decide))),
   c9_theorem.2.1 _ "zzz" (by unfold InvIdx; decide)
      (by unfold WFr; decide) (by unfold NodupKeysR; decide),
   c9_theorem.2.2 _ "a@b.c" paProfile rfl (by decide)⟩

end ClaudeFlip
